import Mathlib

/-!
Shallow embedding of `stitch_videos.py`: a job-deduplication registry
(`StitchManager`), the submission orchestrator (`stitch_videos_async`) and the
background worker (`process_videos`).  Filesystem and subprocess effects are
modelled by explicit environments recording what the outside world does
(whether paths exist, what the tool invocation returns, which deletions fail),
and the observable effects of a run (files written, deletions attempted,
callback invocations, log events) are collected in result structures.
-/

namespace StitchVideos

/-- Python `str.startswith`, over the character sequence of the string. -/
def pyStartsWith (s p : String) : Bool := p.data.isPrefixOf s.data

/-- Python `str.endswith`, over the character sequence of the string. -/
def pyEndsWith (s p : String) : Bool := p.data.isSuffixOf s.data

/-- POSIX `os.path.join` for two components, as CPython implements it:
if `b` is absolute the result is `b`; otherwise `a` and `b` are joined with a
separator unless `a` is empty or already ends with one. -/
def pathJoin (a b : String) : String :=
  if pyStartsWith b "/" then b
  else if a = "" || pyEndsWith a "/" then a ++ b
  else a ++ "/" ++ b

/-- One entry of `StitchManager.active_stitches` (the dict value built by
`_register_stitch`). -/
structure Job where
  start_time : Int
  folder_path : String
  output_path : String
  status : String
deriving DecidableEq

/-- The `active_stitches` dict: a Python dict maps each key to at most one
value, so it is a function from compilation names to optional jobs. -/
abbrev Registry := String → Option Job

/-- The registry of a freshly initialized `StitchManager`. -/
def emptyRegistry : Registry := fun _ => none

/-- `StitchManager.is_stitching`: point-in-time membership check. -/
def is_stitching (reg : Registry) (compilation_name : String) : Bool :=
  (reg compilation_name).isSome

/-- `StitchManager._register_stitch`: atomic check-and-insert performed under
`active_lock`; returns the flag together with the registry state after the
call. -/
def register_stitch (reg : Registry) (compilation_name folder_path output_path : String)
    (now : Int) : Bool × Registry :=
  if (reg compilation_name).isSome then
    (false, reg)
  else
    (true, fun n =>
      if n = compilation_name then
        some { start_time := now, folder_path := folder_path,
               output_path := output_path, status := "started" }
      else reg n)

/-- `StitchManager._unregister_stitch`: idempotent removal under
`active_lock`. -/
def unregister_stitch (reg : Registry) (compilation_name : String) : Registry :=
  fun n => if n = compilation_name then none else reg n

/-- The recognized options of the `"FFMpeg"` section of the config:
`"Path"` (absent means the default `"ffmpeg"`) and `"Args"`. -/
structure FFmpegConfig where
  path : Option String
  args : List String
deriving DecidableEq

/-- Outcome of `subprocess.run(ffmpeg_cmd, ..., check=True)`: normal return,
`CalledProcessError` (non-zero exit, carrying captured stderr), or any other
exception (for example a launch fault). -/
inductive RunOutcome
  | success
  | calledProcessError (stderr : String)
  | exn (msg : String)
deriving DecidableEq

/-- What the outside world does during one run of `process_videos`:
whether writing the list file raises, whether the configured ffmpeg path
exists, what the tool invocation does, which per-file deletions raise, whether
removing the list file succeeds, and whether the callback raises. -/
structure WorkerEnv where
  write_exn : Option String
  ffmpeg_exists : Bool
  run_outcome : RunOutcome
  remove_fails : String → Bool
  remove_list_ok : Bool
  callback_exn : Option String

/-- An event sent to `obs.script_log` by the worker, keeping the payloads the
claims talk about. -/
inductive LogEvent
  | info (msg : String)
  | toolNotFound (path : String)
  | ffmpegError (stderr : String)
  | stitchError (msg : String)
  | deleteFailed (video : String)
deriving DecidableEq

/-- Observable effects of one run of `process_videos`. -/
structure WorkerResult where
  registry : Registry
  list_file : Option (String × String)
  list_removed : Bool
  cmd : Option (List String)
  deletion_attempts : List String
  deleted : List String
  callback_calls : List String
  logs : List LogEvent

/-- The path of the temporary file list:
`os.path.join(folder_path, f"file_list_{compilation_name}.txt")`. -/
def list_file_path (folder_path compilation_name : String) : String :=
  pathJoin folder_path ("file_list_" ++ compilation_name ++ ".txt")

/-- One line of the file list: `f"file '{os.path.join(folder_path, video)}'\n"`. -/
def list_file_line (folder_path video : String) : String :=
  "file \x27" ++ pathJoin folder_path video ++ "\x27\n"

/-- The full content written to the file list: the loop
`for video in video_files: f.write(...)` appends one line per entry, in
snapshot order. -/
def list_file_content (folder_path : String) : List String → String
  | [] => ""
  | video :: rest => list_file_line folder_path video ++ list_file_content folder_path rest

/-- The worker body `process_videos`, as a function of the captured arguments,
the environment and the registry state at termination time.  The `finally`
block makes every branch end in `unregister_stitch`. -/
def process_videos (compilation_name folder_path output_path : String)
    (video_files : List String) (cleanup_source : Bool) (has_callback : Bool)
    (cfg : FFmpegConfig) (env : WorkerEnv) (reg : Registry) : WorkerResult :=
  let reg' := unregister_stitch reg compilation_name
  match env.write_exn with
  | some msg =>
      { registry := reg', list_file := none, list_removed := false, cmd := none,
        deletion_attempts := [], deleted := [], callback_calls := [],
        logs := [.stitchError ("Error during video stitching: " ++ msg)] }
  | none =>
      let lp := list_file_path folder_path compilation_name
      let content := list_file_content folder_path video_files
      let ffmpeg_path := cfg.path.getD "ffmpeg"
      if !env.ffmpeg_exists then
        { registry := reg', list_file := some (lp, content), list_removed := false,
          cmd := none, deletion_attempts := [], deleted := [], callback_calls := [],
          logs := [.toolNotFound ffmpeg_path] }
      else
        let ffmpeg_cmd :=
          [ffmpeg_path, "-f", "concat", "-safe", "0", "-i", lp, "-c", "copy"]
            ++ cfg.args ++ [output_path]
        match env.run_outcome with
        | .calledProcessError stderr =>
            { registry := reg', list_file := some (lp, content), list_removed := false,
              cmd := some ffmpeg_cmd, deletion_attempts := [], deleted := [],
              callback_calls := [], logs := [.ffmpegError stderr] }
        | .exn msg =>
            { registry := reg', list_file := some (lp, content), list_removed := false,
              cmd := some ffmpeg_cmd, deletion_attempts := [], deleted := [],
              callback_calls := [],
              logs := [.stitchError ("Error during video stitching: " ++ msg)] }
        | .success =>
            let attempts :=
              if cleanup_source && !(pyStartsWith output_path "_comp_") then
                video_files
              else []
            let deleted := attempts.filter (fun v => !(env.remove_fails v))
            let del_logs := attempts.map (fun v =>
              if env.remove_fails v then LogEvent.deleteFailed v
              else LogEvent.info ("Deleted source video: " ++ v))
            let cb := if has_callback then [output_path] else []
            let cb_logs :=
              if has_callback then
                match env.callback_exn with
                | some m => [LogEvent.stitchError ("Error during video stitching: " ++ m)]
                | none => []
              else []
            { registry := reg', list_file := some (lp, content),
              list_removed := env.remove_list_ok, cmd := some ffmpeg_cmd,
              deletion_attempts := attempts, deleted := deleted, callback_calls := cb,
              logs := [.info ("Successfully stitched videos into " ++ output_path)]
                ++ del_logs ++ cb_logs }

/-- What the outside world presents to `stitch_videos_async`:
`os.path.exists(folder_path)`, `os.path.isdir(folder_path)`,
`os.listdir(folder_path)`, `os.path.getmtime` on full paths, and
`time.time()`. -/
structure SubmitEnv where
  folder_exists : Bool
  folder_is_dir : Bool
  listdir : List String
  getmtime : String → Int
  now : Int

/-- Which of the short-circuiting rejection branches of
`stitch_videos_async` fired (each logs a distinct warning). -/
inductive Reject
  | duplicate
  | badFolder
  | noFiles
  | lostRace
deriving DecidableEq

/-- The arguments handed to the background worker thread. -/
structure Spawn where
  compilation_name : String
  folder_path : String
  output_path : String
  video_files : List String
  cleanup_source : Bool
  has_callback : Bool
deriving DecidableEq

/-- Observable outcome of one call to `stitch_videos_async`: the return
value, the registry state after the call, which rejection (if any) fired, and
the worker spawn (if any). -/
structure SubmitResult where
  ret : Option String
  registry : Registry
  reject : Option Reject
  spawned : Option Spawn

/-- Python `sorted(l, key=key, reverse=False)`: ascending stable sort by
key. -/
def sortKeyed (key : String → Int) (l : List String) : List String :=
  l.insertionSort (fun a b => key a ≤ key b)

/-- `stitch_videos_async`.  The registry is read twice: `reg0` is its state at
the `is_stitching` check and `reg1` its state at the `_register_stitch` call,
so interference from concurrent submissions between the two lock
acquisitions is represented. -/
def stitch_videos_async (compilation_name folder_path output_path : String)
    (sort_lambda : Option (String → Int)) (cleanup_source : Bool) (has_callback : Bool)
    (env : SubmitEnv) (reg0 reg1 : Registry) : SubmitResult :=
  if is_stitching reg0 compilation_name then
    { ret := none, registry := reg1, reject := some .duplicate, spawned := none }
  else if !(env.folder_exists && env.folder_is_dir) then
    { ret := none, registry := reg1, reject := some .badFolder, spawned := none }
  else
    let video_files := env.listdir.filter (fun f => pyEndsWith f ".mp4")
    if video_files.isEmpty then
      { ret := none, registry := reg1, reject := some .noFiles, spawned := none }
    else
      let res := register_stitch reg1 compilation_name folder_path output_path env.now
      if !res.1 then
        { ret := none, registry := res.2, reject := some .lostRace, spawned := none }
      else
        let key := sort_lambda.getD (fun f => env.getmtime (pathJoin folder_path f))
        let sorted_files := sortKeyed key video_files
        { ret := some output_path, registry := res.2, reject := none,
          spawned := some { compilation_name := compilation_name,
                            folder_path := folder_path,
                            output_path := output_path,
                            video_files := sorted_files,
                            cleanup_source := cleanup_source,
                            has_callback := has_callback } }

/-- Splitting a character sequence at newline characters; the trailing slice
after the last newline is kept (a newline-terminated text of `k` lines splits
into the `k` lines followed by one empty slice). -/
def splitOnNL : List Char → List (List Char)
  | [] => [[]]
  | c :: cs =>
      if c = '\n' then [] :: splitOnNL cs
      else
        match splitOnNL cs with
        | [] => [[c]]
        | l :: ls => (c :: l) :: ls

/-- Concrete config used by witnesses: an existing tool path, no extra args. -/
def cfgDemo : FFmpegConfig := { path := some "/usr/bin/ffmpeg", args := [] }

/-- Witness environment: everything succeeds except deleting `b.mp4`. -/
def envOneFail : WorkerEnv :=
  { write_exn := none, ffmpeg_exists := true, run_outcome := .success,
    remove_fails := fun v => v == "b.mp4", remove_list_ok := true,
    callback_exn := none }

/-- Witness environment: a clean, fully successful run. -/
def envAllOk : WorkerEnv :=
  { write_exn := none, ffmpeg_exists := true, run_outcome := .success,
    remove_fails := fun _ => false, remove_list_ok := true, callback_exn := none }

/-- Witness environment: the configured ffmpeg path does not exist. -/
def envNoTool : WorkerEnv :=
  { write_exn := none, ffmpeg_exists := false, run_outcome := .success,
    remove_fails := fun _ => false, remove_list_ok := true, callback_exn := none }

/-- Witness environment: ffmpeg exits non-zero. -/
def envBadExit : WorkerEnv :=
  { write_exn := none, ffmpeg_exists := true,
    run_outcome := .calledProcessError "demux failed",
    remove_fails := fun _ => false, remove_list_ok := true, callback_exn := none }

/-- Witness submission environment: a valid folder holding three videos (with
modification times making `a.mp4` oldest and `c.mp4` newest) and one
non-video file. -/
def submitEnvDemo : SubmitEnv :=
  { folder_exists := true, folder_is_dir := true,
    listdir := ["b.mp4", "c.mp4", "a.mp4", "notes.txt"],
    getmtime := fun p => if p == "/v/a.mp4" then 1 else if p == "/v/b.mp4" then 2 else 3,
    now := 100 }

/-! Helper lemmas. -/

/-- Unregistering a name makes `is_stitching` false for it. -/
theorem is_stitching_unregister (reg : Registry) (n : String) :
    is_stitching (unregister_stitch reg n) n = false := by
  simp [is_stitching, unregister_stitch]

/-- A string beginning with a slash does not begin with an underscore prefix:
specialized to the protected pattern. -/
theorem startsWith_slash_not_comp (s : String) (h : pyStartsWith s "/" = true) :
    pyStartsWith s "_comp_" = false := by
  unfold pyStartsWith at h ⊢
  cases hd : s.data with
  | nil => rw [hd] at h; simp [List.isPrefixOf] at h
  | cons c t =>
      rw [hd] at h
      simp [List.isPrefixOf] at h ⊢
      intro hc
      exact absurd (hc.trans h.symm) (by decide)

/-- If a string begins with a slash, so does any string it is a prefix of. -/
theorem slash_isPrefixOf_append (xs ys : List Char)
    (h : ['/'].isPrefixOf xs = true) : ['/'].isPrefixOf (xs ++ ys) = true := by
  cases xs with
  | nil => simp [List.isPrefixOf] at h
  | cons c t => simp [List.isPrefixOf] at h ⊢; exact h

/-- Joining onto an absolute folder yields an absolute path. -/
theorem pathJoin_absolute (a b : String) (h : pyStartsWith a "/" = true) :
    pyStartsWith (pathJoin a b) "/" = true := by
  unfold pathJoin
  split
  · assumption
  · split
    · next h2 =>
        unfold pyStartsWith at h ⊢
        rw [String.data_append]
        exact slash_isPrefixOf_append _ _ h
    · unfold pyStartsWith at h ⊢
      rw [String.data_append, String.data_append]
      rw [List.append_assoc]
      exact slash_isPrefixOf_append _ _ h

/-- Two sorted lists that are permutations of each other and have pairwise
distinct keys are equal. -/
theorem sorted_perm_eq_of_nodup_keys (key : String → Int) :
    ∀ l1 l2 : List String, l1.Perm l2 →
      l1.Sorted (fun a b => key a ≤ key b) →
      l2.Sorted (fun a b => key a ≤ key b) →
      l1.Pairwise (fun a b => key a ≠ key b) →
      l1 = l2 := by
  intro l1
  induction l1 with
  | nil =>
      intro l2 hp _ _ _
      exact (hp.symm.eq_nil).symm
  | cons a t ih =>
      intro l2 hp hs1 hs2 hpw
      cases l2 with
      | nil =>
          have := hp.eq_nil
          simp at this
      | cons b t2 =>
          by_cases hab : a = b
          · subst hab
            have hpt : t.Perm t2 := hp.cons_inv
            rw [ih t2 hpt hs1.of_cons hs2.of_cons hpw.of_cons]
          · exfalso
            have ha2 : a ∈ b :: t2 := hp.mem_iff.mp (List.mem_cons_self a t)
            have hat2 : a ∈ t2 := by
              rcases List.mem_cons.mp ha2 with h | h
              · exact absurd h hab
              · exact h
            have hb1 : b ∈ a :: t := hp.mem_iff.mpr (List.mem_cons_self b t2)
            have hbt : b ∈ t := by
              rcases List.mem_cons.mp hb1 with h | h
              · exact absurd h.symm hab
              · exact h
            have h1 : key a ≤ key b := List.rel_of_sorted_cons hs1 b hbt
            have h2 : key b ≤ key a := List.rel_of_sorted_cons hs2 a hat2
            have hne : key a ≠ key b := (List.pairwise_cons.mp hpw).1 b hbt
            exact hne (le_antisymm h1 h2)

/-- `sortKeyed` returns a permutation of its input. -/
theorem sortKeyed_perm (key : String → Int) (l : List String) :
    (sortKeyed key l).Perm l :=
  List.perm_insertionSort _ l

/-- `sortKeyed` returns a list sorted ascending by key. -/
theorem sortKeyed_sorted (key : String → Int) (l : List String) :
    (sortKeyed key l).Sorted (fun a b => key a ≤ key b) := by
  haveI : IsTotal String (fun a b => key a ≤ key b) := ⟨fun a b => le_total _ _⟩
  haveI : IsTrans String (fun a b => key a ≤ key b) := ⟨fun _ _ _ h h2 => le_trans h h2⟩
  exact List.sorted_insertionSort _ l

/-- Sorting any permutation of three files with strictly ascending keys
produces exactly the ascending order. -/
theorem sortKeyed_eq_three (key : String → Int) (f1 f2 f3 : String) (l : List String)
    (hp : l.Perm [f1, f2, f3]) (h12 : key f1 < key f2) (h23 : key f2 < key f3) :
    sortKeyed key l = [f1, f2, f3] := by
  have hperm : (sortKeyed key l).Perm [f1, f2, f3] := (sortKeyed_perm key l).trans hp
  have hs2 : ([f1, f2, f3] : List String).Sorted (fun a b => key a ≤ key b) := by
    simp [List.sorted_cons]
    omega
  have hpw2 : ([f1, f2, f3] : List String).Pairwise (fun a b => key a ≠ key b) := by
    simp [List.pairwise_cons]
    omega
  have hpw1 : (sortKeyed key l).Pairwise (fun a b => key a ≠ key b) :=
    (hperm.pairwise_iff (fun h => Ne.symm h)).mpr hpw2
  exact sorted_perm_eq_of_nodup_keys key _ _ hperm (sortKeyed_sorted key l) hs2 hpw1

/-- Splitting after one newline-free line peels that line off. -/
theorem splitOnNL_line_append (xs : List Char) (rest : List Char)
    (h : '\n' ∉ xs) :
    splitOnNL (xs ++ '\n' :: rest) = xs :: splitOnNL rest := by
  induction xs with
  | nil => simp [splitOnNL]
  | cons c t ih =>
      have hc : c ≠ '\n' := by
        intro hh
        exact h (hh ▸ List.mem_cons_self c t)
      have ht : '\n' ∉ t := fun hh => h (List.mem_cons_of_mem c hh)
      simp only [List.cons_append, splitOnNL, if_neg hc]
      rw [show t.append ('\n' :: rest) = t ++ '\n' :: rest from rfl, ih ht]

/-- Newlines do not appear in a join of newline-free components. -/
theorem nl_not_in_pathJoin (a b : String) (ha : '\n' ∉ a.data) (hb : '\n' ∉ b.data) :
    '\n' ∉ (pathJoin a b).data := by
  unfold pathJoin
  split
  · exact hb
  · split
    · rw [String.data_append]
      intro h
      rcases List.mem_append.mp h with h | h
      · exact ha h
      · exact hb h
    · rw [String.data_append, String.data_append]
      intro h
      rcases List.mem_append.mp h with h | h
      · rcases List.mem_append.mp h with h | h
        · exact ha h
        · simp at h
      · exact hb h

/-- The list-artifact content splits at newlines into exactly one line of the
form `file '<joined path>'` per snapshot entry, in snapshot order, plus the
empty slice after the final newline. -/
theorem splitOnNL_list_file_content (fp : String) (vids : List String)
    (hfp : '\n' ∉ fp.data) (hv : ∀ v ∈ vids, '\n' ∉ v.data) :
    splitOnNL (list_file_content fp vids).data
      = vids.map (fun v => ("file \x27" ++ pathJoin fp v ++ "\x27").data) ++ [[]] := by
  induction vids with
  | nil => simp [list_file_content, splitOnNL]
  | cons v rest ih =>
      have hbody : '\n' ∉ ("file \x27" ++ pathJoin fp v ++ "\x27").data := by
        rw [String.data_append, String.data_append]
        intro h
        rcases List.mem_append.mp h with h | h
        · rcases List.mem_append.mp h with h | h
          · simp at h
          · exact nl_not_in_pathJoin fp v hfp (hv v (List.mem_cons_self v rest)) h
        · simp at h
      have hdata : (list_file_content fp (v :: rest)).data
          = ("file \x27" ++ pathJoin fp v ++ "\x27").data
              ++ '\n' :: (list_file_content fp rest).data := by
        show (list_file_line fp v ++ list_file_content fp rest).data = _
        rw [String.data_append]
        unfold list_file_line
        rw [String.data_append, String.data_append, String.data_append]
        simp
      rw [hdata, splitOnNL_line_append _ _ hbody,
        ih (fun w hw => hv w (List.mem_cons_of_mem v hw))]
      simp

/-- Characters of the artifact base name `file_list_<n>.txt`, for slash-free
`n`, contain no slash. -/
theorem slash_not_in_base (n : String) (hn : '/' ∉ n.data) :
    '/' ∉ ("file_list_" ++ n ++ ".txt").data := by
  rw [String.data_append, String.data_append]
  intro h
  rcases List.mem_append.mp h with h | h
  · rcases List.mem_append.mp h with h | h
    · simp at h
    · exact hn h
  · simp at h

/-- The artifact base name is never an absolute path. -/
theorem base_not_absolute (n : String) :
    pyStartsWith ("file_list_" ++ n ++ ".txt") "/" = false := by
  unfold pyStartsWith
  rw [String.data_append, String.data_append]
  simp [List.isPrefixOf]

/-- `takeWhile` over an append where the predicate holds on all of the first
part and fails at the head of the second (or the second is empty). -/
theorem takeWhile_append_left (p : Char → Bool) (xs ys : List Char)
    (hxs : ∀ c ∈ xs, p c = true)
    (hys : ys = [] ∨ ∃ c t, ys = c :: t ∧ p c = false) :
    (xs ++ ys).takeWhile p = xs := by
  induction xs with
  | nil =>
      rcases hys with h | ⟨c, t, hct, hpc⟩
      · simp [h]
      · simp [hct, List.takeWhile_cons, hpc]
  | cons x xs ih =>
      have hx : p x = true := hxs x (List.mem_cons_self x xs)
      simp only [List.cons_append, List.takeWhile_cons, hx, if_true]
      rw [ih (fun c hc => hxs c (List.mem_cons_of_mem x hc))]

/-- The reversed basename of the list-artifact path recovers the artifact base
name, for slash-free compilation names, whatever the folder is. -/
theorem basenameRev_list_file_path (f n : String) (hn : '/' ∉ n.data) :
    (list_file_path f n).data.reverse.takeWhile (fun c => c ≠ '/')
      = ("file_list_" ++ n ++ ".txt").data.reverse := by
  have hbase : ∀ c ∈ ("file_list_" ++ n ++ ".txt").data.reverse,
      (fun c => decide (c ≠ '/')) c = true := by
    intro c hc
    have := slash_not_in_base n hn
    simp only [List.mem_reverse] at hc
    simp only [decide_eq_true_eq]
    intro hcc
    exact this (hcc ▸ hc)
  unfold list_file_path pathJoin
  rw [if_neg (by rw [base_not_absolute n]; simp)]
  split
  · next hcond =>
      rw [String.data_append, List.reverse_append]
      rcases (show f = "" ∨ pyEndsWith f "/" = true by simpa using hcond) with hf | hends
      · subst hf
        exact takeWhile_append_left _ _ _ hbase (Or.inl rfl)
      · have hsuf : ['/'] <:+ f.data := by
          have : ['/'].isSuffixOf f.data = true := by
            simpa [pyEndsWith] using hends
          rwa [List.isSuffixOf_iff_suffix] at this
        rcases hsuf with ⟨g, hg⟩
        rw [← hg, List.reverse_append]
        exact takeWhile_append_left _ _ _ hbase (Or.inr ⟨'/', g.reverse, by simp, by decide⟩)
  · rw [String.data_append, String.data_append, List.reverse_append, List.reverse_append]
    exact takeWhile_append_left _ _ _ hbase (Or.inr ⟨'/', f.data.reverse, rfl, by decide⟩)

/-- For slash-free names, the list-artifact path determines the compilation
name: two jobs with different names write to different artifact paths,
whatever their folders are. -/
theorem list_file_path_inj (f1 f2 n1 n2 : String)
    (h1 : '/' ∉ n1.data) (h2 : '/' ∉ n2.data) (hne : n1 ≠ n2) :
    list_file_path f1 n1 ≠ list_file_path f2 n2 := by
  intro heq
  apply hne
  have hdata : (list_file_path f1 n1).data = (list_file_path f2 n2).data := by rw [heq]
  have hbase : ("file_list_" ++ n1 ++ ".txt").data.reverse
      = ("file_list_" ++ n2 ++ ".txt").data.reverse := by
    rw [← basenameRev_list_file_path f1 n1 h1, ← basenameRev_list_file_path f2 n2 h2, hdata]
  have hb : ("file_list_" ++ n1 ++ ".txt").data = ("file_list_" ++ n2 ++ ".txt").data := by
    have := congrArg List.reverse hbase
    simpa using this
  rw [String.data_append, String.data_append, String.data_append, String.data_append] at hb
  simp only [List.append_assoc] at hb
  have hb2 : n1.data ++ ".txt".data = n2.data ++ ".txt".data :=
    List.append_cancel_left hb
  have hb3 : n1.data = n2.data := List.append_cancel_right hb2
  cases n1; cases n2
  exact congrArg String.mk (by simpa using hb3)

/-! Claim theorems. -/

/-- C1: `register_stitch` is an atomic check-and-insert: when the name is
already present it returns false and leaves the registry unchanged, and of two
registration attempts for the same name performed one after the other (the
lock serializes any interleaving), starting from a registry where the name is
absent, exactly the first is accepted and the second is rejected. -/
theorem register_stitch_exactly_once (reg : Registry) (n f o f2 o2 : String) (t t2 : Int) :
    (is_stitching reg n = true → register_stitch reg n f o t = (false, reg)) ∧
    (is_stitching reg n = false →
      (register_stitch reg n f o t).1 = true ∧
      (register_stitch (register_stitch reg n f o t).2 n f2 o2 t2).1 = false) := by
  constructor
  · intro h
    simp only [is_stitching] at h
    simp [register_stitch, h]
  · intro h
    unfold is_stitching at h
    have h2 : reg n = none := by
      cases hrn : reg n
      · rfl
      · rw [hrn] at h; simp at h
    simp [register_stitch, h2]

/-- Witness for C1 at a concrete registry: the first registration of `demo`
is accepted and the second rejected. -/
theorem register_stitch_exactly_once_witness :
    (is_stitching emptyRegistry "demo" = false) ∧
    ((register_stitch emptyRegistry "demo" "/videos" "/out.mp4" 0).1 = true ∧
      (register_stitch (register_stitch emptyRegistry "demo" "/videos" "/out.mp4" 0).2
          "demo" "/videos" "/other.mp4" 1).1 = false) :=
  ⟨rfl, (register_stitch_exactly_once emptyRegistry "demo" "/videos" "/out.mp4"
      "/videos" "/other.mp4" 0 1).2 rfl⟩

/-- C2: whatever the environment does (list-file write fault, missing tool,
tool failure, launch fault, unexpected exception, success), the worker's
`finally` clause leaves the registry without the job, so `is_stitching` is
false afterward. -/
theorem worker_always_unregisters (n fp op : String) (vids : List String)
    (cs hc : Bool) (cfg : FFmpegConfig) (env : WorkerEnv) (reg : Registry) :
    (process_videos n fp op vids cs hc cfg env reg).registry = unregister_stitch reg n ∧
    is_stitching (process_videos n fp op vids cs hc cfg env reg).registry n = false := by
  have hreg : (process_videos n fp op vids cs hc cfg env reg).registry
      = unregister_stitch reg n := by
    unfold process_videos
    rcases env with ⟨we, fe, ro, rf, rl, ce⟩
    cases we <;> cases fe <;> cases ro <;> simp
  refine ⟨hreg, ?_⟩
  rw [hreg]
  exact is_stitching_unregister reg n

/-- C3: with a callback supplied, the worker's callback-invocation list is
`[output_path]` exactly when the write succeeded, the tool exists and the
invocation exits zero, and it is nonempty exactly when the tool was actually
invoked and exited zero; on every failure path it is empty. -/
theorem callback_fires_iff_zero_exit (n fp op : String) (vids : List String)
    (cs : Bool) (cfg : FFmpegConfig) (env : WorkerEnv) (reg : Registry) :
    (process_videos n fp op vids cs true cfg env reg).callback_calls =
      (if env.write_exn = none ∧ env.ffmpeg_exists = true ∧ env.run_outcome = RunOutcome.success
        then [op] else []) ∧
    ((process_videos n fp op vids cs true cfg env reg).callback_calls ≠ [] ↔
      ((process_videos n fp op vids cs true cfg env reg).cmd.isSome = true ∧
        env.run_outcome = RunOutcome.success)) := by
  rcases env with ⟨we, fe, ro, rf, rl, ce⟩
  cases we <;> cases fe <;> cases ro <;> simp [process_videos]

/-- C4: on the success path with cleanup enabled and a non-protected output
path, deletion is attempted for every snapshot file; each deletion is
independent (the deleted set is exactly the attempts whose removal does not
fail, each failure is logged, and the callback still fires); on any failure
kind nothing is deleted. -/
theorem cleanup_per_file_independent (n fp op : String) (vids : List String)
    (hc : Bool) (cfg : FFmpegConfig) (env : WorkerEnv) (reg : Registry) :
    ((env.write_exn = none → env.ffmpeg_exists = true →
        env.run_outcome = RunOutcome.success → pyStartsWith op "_comp_" = false →
      (process_videos n fp op vids true hc cfg env reg).deletion_attempts = vids ∧
      (process_videos n fp op vids true hc cfg env reg).deleted
          = vids.filter (fun v => !(env.remove_fails v)) ∧
      (∀ v ∈ vids, env.remove_fails v = true →
        LogEvent.deleteFailed v ∈ (process_videos n fp op vids true hc cfg env reg).logs) ∧
      (process_videos n fp op vids true hc cfg env reg).callback_calls
          = (if hc then [op] else []))) ∧
    (¬(env.write_exn = none ∧ env.ffmpeg_exists = true ∧
        env.run_outcome = RunOutcome.success) →
      (process_videos n fp op vids true hc cfg env reg).deleted = [] ∧
      (process_videos n fp op vids true hc cfg env reg).deletion_attempts = []) := by
  constructor
  · rcases env with ⟨we, fe, ro, rf, rl, ce⟩
    intro hw hf hr hcomp
    simp only at hw hf hr
    subst hw; subst hf; subst hr
    refine ⟨by simp [process_videos, hcomp], by simp [process_videos, hcomp], ?_, ?_⟩
    · intro v hv hrf
      simp [process_videos, hcomp, List.mem_append, List.mem_map]
      exact Or.inl ⟨v, hv, by simp only at hrf; simp [hrf]⟩
    · cases hc <;> simp [process_videos, hcomp]
  · rcases env with ⟨we, fe, ro, rf, rl, ce⟩
    intro hfail
    cases we <;> cases fe <;> cases ro <;> simp_all [process_videos]

/-- Witness for C4: a run in which deleting `b.mp4` fails still attempts both
deletions, deletes `a.mp4`, logs the failure and fires the callback; a run in
which ffmpeg exits non-zero deletes nothing. -/
theorem cleanup_per_file_independent_witness :
    ((process_videos "demo" "/v" "/out.mp4" ["a.mp4", "b.mp4"] true true cfgDemo
        envOneFail emptyRegistry).deletion_attempts = ["a.mp4", "b.mp4"] ∧
      (process_videos "demo" "/v" "/out.mp4" ["a.mp4", "b.mp4"] true true cfgDemo
        envOneFail emptyRegistry).deleted
          = ["a.mp4", "b.mp4"].filter (fun v => !(envOneFail.remove_fails v)) ∧
      (∀ v ∈ ["a.mp4", "b.mp4"], envOneFail.remove_fails v = true →
        LogEvent.deleteFailed v ∈ (process_videos "demo" "/v" "/out.mp4"
          ["a.mp4", "b.mp4"] true true cfgDemo envOneFail emptyRegistry).logs) ∧
      (process_videos "demo" "/v" "/out.mp4" ["a.mp4", "b.mp4"] true true cfgDemo
        envOneFail emptyRegistry).callback_calls
          = (if true then ["/out.mp4"] else [])) ∧
    ((process_videos "demo" "/v" "/out.mp4" ["a.mp4", "b.mp4"] true true cfgDemo
        envBadExit emptyRegistry).deleted = [] ∧
      (process_videos "demo" "/v" "/out.mp4" ["a.mp4", "b.mp4"] true true cfgDemo
        envBadExit emptyRegistry).deletion_attempts = []) :=
  ⟨(cleanup_per_file_independent "demo" "/v" "/out.mp4" ["a.mp4", "b.mp4"] true cfgDemo
      envOneFail emptyRegistry).1 rfl rfl rfl (by decide),
    (cleanup_per_file_independent "demo" "/v" "/out.mp4" ["a.mp4", "b.mp4"] true cfgDemo
      envBadExit emptyRegistry).2 (by simp [envBadExit])⟩

/-- C5: whenever the write succeeds the worker writes exactly the artifact at
the name-derived path with the exact content; the content splits at newlines
into one line `file '<joined path>'` per snapshot entry, in order, plus the
final empty slice; for slash-free names the artifact path determines the
name, so two concurrently active jobs (which have distinct names) cannot
collide; and with an absolute folder every listed path is absolute. -/
theorem list_artifact_exact_format (n fp op : String) (vids : List String)
    (cs hc : Bool) (cfg : FFmpegConfig) (env : WorkerEnv) (reg : Registry)
    (hw : env.write_exn = none) (hfp : '\n' ∉ fp.data)
    (hv : ∀ v ∈ vids, '\n' ∉ v.data) :
    (process_videos n fp op vids cs hc cfg env reg).list_file
        = some (list_file_path fp n, list_file_content fp vids) ∧
    splitOnNL (list_file_content fp vids).data
        = vids.map (fun v => ("file \x27" ++ pathJoin fp v ++ "\x27").data) ++ [[]] ∧
    (∀ n2 f2, '/' ∉ n.data → '/' ∉ n2.data → n ≠ n2 →
      list_file_path fp n ≠ list_file_path f2 n2) ∧
    (pyStartsWith fp "/" = true → ∀ v ∈ vids, pyStartsWith (pathJoin fp v) "/" = true) := by
  refine ⟨?_, splitOnNL_list_file_content fp vids hfp hv, ?_, ?_⟩
  · rcases env with ⟨we, fe, ro, rf, rl, ce⟩
    simp only at hw
    subst hw
    cases fe <;> cases ro <;> simp [process_videos]
  · intro n2 f2 hn hn2 hne
    exact list_file_path_inj fp f2 n n2 hn hn2 hne
  · intro habs v _
    exact pathJoin_absolute fp v habs

/-- Witness for C5 on a concrete two-file snapshot in `/v`. -/
theorem list_artifact_exact_format_witness :
    (process_videos "demo" "/v" "/out.mp4" ["a.mp4", "b.mp4"] true true cfgDemo
        envAllOk emptyRegistry).list_file
        = some (list_file_path "/v" "demo", list_file_content "/v" ["a.mp4", "b.mp4"]) ∧
    splitOnNL (list_file_content "/v" ["a.mp4", "b.mp4"]).data
        = (["a.mp4", "b.mp4"].map
            (fun v => ("file \x27" ++ pathJoin "/v" v ++ "\x27").data)) ++ [[]] ∧
    (∀ n2 f2, '/' ∉ "demo".data → '/' ∉ n2.data → "demo" ≠ n2 →
      list_file_path "/v" "demo" ≠ list_file_path f2 n2) ∧
    (pyStartsWith "/v" "/" = true → ∀ v ∈ ["a.mp4", "b.mp4"],
      pyStartsWith (pathJoin "/v" v) "/" = true) :=
  list_artifact_exact_format "demo" "/v" "/out.mp4" ["a.mp4", "b.mp4"] true true cfgDemo
    envAllOk emptyRegistry rfl (by decide) (by decide)

/-- C8 counterexample: with the tool path absent, the worker returns early
from inside the `try` block, skipping the list-file removal, so the
intermediate list artifact was written but is never cleaned up — refuting the
claim that on this path "the intermediate list artifact is cleaned up". -/
theorem tool_not_found_leaves_artifact :
    (process_videos "demo" "/v" "/out.mp4" ["a.mp4"] true true cfgDemo envNoTool
        emptyRegistry).list_file.isSome = true ∧
    (process_videos "demo" "/v" "/out.mp4" ["a.mp4"] true true cfgDemo envNoTool
        emptyRegistry).list_removed = false := by
  constructor <;> rfl

/-- C8 (amended): when the resolved tool path does not exist, the worker logs
a tool-not-found error, attempts no deletion, never invokes the callback,
never invokes the tool, and is unregistered; the intermediate list artifact
was written and is NOT removed on this path. -/
theorem tool_not_found_behavior (n fp op : String) (vids : List String)
    (cs hc : Bool) (cfg : FFmpegConfig) (env : WorkerEnv) (reg : Registry)
    (hw : env.write_exn = none) (hf : env.ffmpeg_exists = false) :
    (process_videos n fp op vids cs hc cfg env reg).registry = unregister_stitch reg n ∧
    is_stitching (process_videos n fp op vids cs hc cfg env reg).registry n = false ∧
    (process_videos n fp op vids cs hc cfg env reg).deletion_attempts = [] ∧
    (process_videos n fp op vids cs hc cfg env reg).deleted = [] ∧
    (process_videos n fp op vids cs hc cfg env reg).callback_calls = [] ∧
    (process_videos n fp op vids cs hc cfg env reg).cmd = none ∧
    (process_videos n fp op vids cs hc cfg env reg).logs
        = [LogEvent.toolNotFound (cfg.path.getD "ffmpeg")] ∧
    (process_videos n fp op vids cs hc cfg env reg).list_file
        = some (list_file_path fp n, list_file_content fp vids) ∧
    (process_videos n fp op vids cs hc cfg env reg).list_removed = false := by
  rcases env with ⟨we, fe, ro, rf, rl, ce⟩
  simp only at hw hf
  subst hw; subst hf
  simp [process_videos, is_stitching, unregister_stitch]

/-- Witness for C8 (amended) at a concrete misconfigured environment. -/
theorem tool_not_found_behavior_witness :
    (process_videos "demo" "/v" "/out.mp4" ["a.mp4"] true true cfgDemo envNoTool
        emptyRegistry).registry = unregister_stitch emptyRegistry "demo" ∧
    is_stitching (process_videos "demo" "/v" "/out.mp4" ["a.mp4"] true true cfgDemo
        envNoTool emptyRegistry).registry "demo" = false ∧
    (process_videos "demo" "/v" "/out.mp4" ["a.mp4"] true true cfgDemo envNoTool
        emptyRegistry).deletion_attempts = [] ∧
    (process_videos "demo" "/v" "/out.mp4" ["a.mp4"] true true cfgDemo envNoTool
        emptyRegistry).deleted = [] ∧
    (process_videos "demo" "/v" "/out.mp4" ["a.mp4"] true true cfgDemo envNoTool
        emptyRegistry).callback_calls = [] ∧
    (process_videos "demo" "/v" "/out.mp4" ["a.mp4"] true true cfgDemo envNoTool
        emptyRegistry).cmd = none ∧
    (process_videos "demo" "/v" "/out.mp4" ["a.mp4"] true true cfgDemo envNoTool
        emptyRegistry).logs = [LogEvent.toolNotFound (cfgDemo.path.getD "ffmpeg")] ∧
    (process_videos "demo" "/v" "/out.mp4" ["a.mp4"] true true cfgDemo envNoTool
        emptyRegistry).list_file
        = some (list_file_path "/v" "demo", list_file_content "/v" ["a.mp4"]) ∧
    (process_videos "demo" "/v" "/out.mp4" ["a.mp4"] true true cfgDemo envNoTool
        emptyRegistry).list_removed = false :=
  tool_not_found_behavior "demo" "/v" "/out.mp4" ["a.mp4"] true true cfgDemo envNoTool
    emptyRegistry rfl rfl

/-- C10: on the success path, deletion is attempted exactly when the cleanup
flag is set and the full output path string does not start with the literal
`_comp_`; a string starting with a path separator never starts with `_comp_`,
so an absolute output path is never protected, and its sources are deleted
whenever cleanup is enabled and the tool succeeds. -/
theorem protected_output_exact_check (n fp op : String) (vids : List String)
    (cleanup hc : Bool) (cfg : FFmpegConfig) (env : WorkerEnv) (reg : Registry)
    (hw : env.write_exn = none) (hf : env.ffmpeg_exists = true)
    (hr : env.run_outcome = RunOutcome.success) :
    (process_videos n fp op vids cleanup hc cfg env reg).deletion_attempts
        = (if cleanup && !(pyStartsWith op "_comp_") then vids else []) ∧
    (∀ s : String, pyStartsWith s "/" = true → pyStartsWith s "_comp_" = false) ∧
    (pyStartsWith op "/" = true → cleanup = true →
      (process_videos n fp op vids cleanup hc cfg env reg).deletion_attempts = vids) := by
  rcases env with ⟨we, fe, ro, rf, rl, ce⟩
  simp only at hw hf hr
  subst hw; subst hf; subst hr
  refine ⟨by simp [process_videos], fun s hs => startsWith_slash_not_comp s hs, ?_⟩
  intro habs hcl
  subst hcl
  have hnc := startsWith_slash_not_comp op habs
  simp [process_videos, hnc]

/-- Witness for C10 with an absolute output path and cleanup enabled. -/
theorem protected_output_exact_check_witness :
    (process_videos "demo" "/v" "/out.mp4" ["a.mp4"] true true cfgDemo envAllOk
        emptyRegistry).deletion_attempts
        = (if true && !(pyStartsWith "/out.mp4" "_comp_") then ["a.mp4"] else []) ∧
    (∀ s : String, pyStartsWith s "/" = true → pyStartsWith s "_comp_" = false) ∧
    (pyStartsWith "/out.mp4" "/" = true → true = true →
      (process_videos "demo" "/v" "/out.mp4" ["a.mp4"] true true cfgDemo envAllOk
        emptyRegistry).deletion_attempts = ["a.mp4"]) :=
  protected_output_exact_check "demo" "/v" "/out.mp4" ["a.mp4"] true true cfgDemo envAllOk
    emptyRegistry rfl rfl rfl

/-- A false `is_stitching` means the registry has no entry for the name. -/
theorem is_stitching_eq_false (reg : Registry) (n : String)
    (h : is_stitching reg n = false) : reg n = none := by
  unfold is_stitching at h
  cases hrn : reg n
  · rfl
  · rw [hrn] at h; simp at h

/-- C6: with no comparator supplied, a snapshot whose three files have
strictly ascending modification times is handed to the worker exactly in
ascending (oldest-first) order, whatever order the directory listing
produced. -/
theorem default_order_mtime_ascending (n fp op : String) (cs hc : Bool)
    (env : SubmitEnv) (reg0 reg1 : Registry) (f1 f2 f3 : String)
    (h0 : is_stitching reg0 n = false)
    (hfe : env.folder_exists = true) (hfd : env.folder_is_dir = true)
    (hfilter : (env.listdir.filter (fun f => pyEndsWith f ".mp4")).Perm [f1, f2, f3])
    (h1 : is_stitching reg1 n = false)
    (m12 : env.getmtime (pathJoin fp f1) < env.getmtime (pathJoin fp f2))
    (m23 : env.getmtime (pathJoin fp f2) < env.getmtime (pathJoin fp f3)) :
    (stitch_videos_async n fp op none cs hc env reg0 reg1).spawned
        = some { compilation_name := n, folder_path := fp, output_path := op,
                 video_files := [f1, f2, f3], cleanup_source := cs,
                 has_callback := hc } ∧
    (stitch_videos_async n fp op none cs hc env reg0 reg1).ret = some op := by
  have hne : env.listdir.filter (fun f => pyEndsWith f ".mp4") ≠ [] := by
    intro hnil
    rw [hnil] at hfilter
    have := hfilter.length_eq
    simp at this
  have hsort : sortKeyed (fun f => env.getmtime (pathJoin fp f))
      (env.listdir.filter (fun f => pyEndsWith f ".mp4")) = [f1, f2, f3] :=
    sortKeyed_eq_three _ f1 f2 f3 _ hfilter m12 m23
  constructor <;>
    simp [stitch_videos_async, h0, hfe, hfd, hne, register_stitch,
      is_stitching_eq_false reg1 n h1, hsort]

/-- Witness for C6: the folder listing `["b.mp4", "c.mp4", "a.mp4", "notes.txt"]`
with mtimes `a < b < c` is spawned as `["a.mp4", "b.mp4", "c.mp4"]`. -/
theorem default_order_mtime_ascending_witness :
    (stitch_videos_async "demo" "/v" "/out.mp4" none true false submitEnvDemo
        emptyRegistry emptyRegistry).spawned
        = some { compilation_name := "demo", folder_path := "/v",
                 output_path := "/out.mp4",
                 video_files := ["a.mp4", "b.mp4", "c.mp4"],
                 cleanup_source := true, has_callback := false } ∧
    (stitch_videos_async "demo" "/v" "/out.mp4" none true false submitEnvDemo
        emptyRegistry emptyRegistry).ret = some "/out.mp4" :=
  default_order_mtime_ascending "demo" "/v" "/out.mp4" true false submitEnvDemo
    emptyRegistry emptyRegistry "a.mp4" "b.mp4" "c.mp4" rfl rfl rfl (by decide) rfl
    (by decide) (by decide)

/-- C7: the validation of a submission short-circuits in the order
duplicate-in-flight, folder check, empty-snapshot check, registration; each
failing check yields its rejection with the registry left exactly as found,
and the output path is returned exactly when every check passes and the
registration is accepted. -/
theorem submission_validation_order (n fp op : String) (sl : Option (String → Int))
    (cs hc : Bool) (env : SubmitEnv) (reg0 reg1 : Registry) :
    (is_stitching reg0 n = true →
      stitch_videos_async n fp op sl cs hc env reg0 reg1
        = { ret := none, registry := reg1, reject := some Reject.duplicate,
            spawned := none }) ∧
    (is_stitching reg0 n = false → (env.folder_exists && env.folder_is_dir) = false →
      stitch_videos_async n fp op sl cs hc env reg0 reg1
        = { ret := none, registry := reg1, reject := some Reject.badFolder,
            spawned := none }) ∧
    (is_stitching reg0 n = false → (env.folder_exists && env.folder_is_dir) = true →
      env.listdir.filter (fun f => pyEndsWith f ".mp4") = [] →
      stitch_videos_async n fp op sl cs hc env reg0 reg1
        = { ret := none, registry := reg1, reject := some Reject.noFiles,
            spawned := none }) ∧
    (is_stitching reg0 n = false → (env.folder_exists && env.folder_is_dir) = true →
      env.listdir.filter (fun f => pyEndsWith f ".mp4") ≠ [] →
      is_stitching reg1 n = true →
      stitch_videos_async n fp op sl cs hc env reg0 reg1
        = { ret := none, registry := reg1, reject := some Reject.lostRace,
            spawned := none }) ∧
    ((stitch_videos_async n fp op sl cs hc env reg0 reg1).ret = some op ↔
      (is_stitching reg0 n = false ∧ (env.folder_exists && env.folder_is_dir) = true ∧
        env.listdir.filter (fun f => pyEndsWith f ".mp4") ≠ [] ∧
        is_stitching reg1 n = false)) ∧
    ((stitch_videos_async n fp op sl cs hc env reg0 reg1).ret = none →
      (stitch_videos_async n fp op sl cs hc env reg0 reg1).registry = reg1) := by
  refine ⟨?_, ?_, ?_, ?_, ?_, ?_⟩
  · intro h
    simp [stitch_videos_async, h]
  · intro h0 h1
    simp [stitch_videos_async, h0, h1]
  · intro h0 h1 h2
    simp [stitch_videos_async, h0, h1, h2]
  · intro h0 h1 h2 h3
    have h3s : (reg1 n).isSome = true := h3
    simp [stitch_videos_async, h0, h1, h2, register_stitch, h3s]
  · by_cases h0 : is_stitching reg0 n = true
    · simp [stitch_videos_async, h0]
    · have h0f : is_stitching reg0 n = false := by
        revert h0; cases is_stitching reg0 n <;> simp
      by_cases h1 : (env.folder_exists && env.folder_is_dir) = true
      · by_cases h2 : env.listdir.filter (fun f => pyEndsWith f ".mp4") = []
        · simp [stitch_videos_async, h0f, h1, h2]
        · by_cases h3 : is_stitching reg1 n = true
          · have h3s : (reg1 n).isSome = true := h3
            simp [stitch_videos_async, h0f, h1, h2, register_stitch, h3s, h3]
          · have h3f : is_stitching reg1 n = false := by
              revert h3; cases is_stitching reg1 n <;> simp
            simp [stitch_videos_async, h0f, h1, h2, register_stitch,
              is_stitching_eq_false reg1 n h3f, h3f]
      · have h1f : (env.folder_exists && env.folder_is_dir) = false := by
          revert h1; cases (env.folder_exists && env.folder_is_dir) <;> simp
        simp [stitch_videos_async, h0f, h1f]
  · intro hret
    by_cases h0 : is_stitching reg0 n = true
    · simp [stitch_videos_async, h0]
    · have h0f : is_stitching reg0 n = false := by
        revert h0; cases is_stitching reg0 n <;> simp
      by_cases h1 : (env.folder_exists && env.folder_is_dir) = true
      · by_cases h2 : env.listdir.filter (fun f => pyEndsWith f ".mp4") = []
        · simp [stitch_videos_async, h0f, h1, h2]
        · by_cases h3 : is_stitching reg1 n = true
          · have h3s : (reg1 n).isSome = true := h3
            simp [stitch_videos_async, h0f, h1, h2, register_stitch, h3s]
          · have h3f : is_stitching reg1 n = false := by
              revert h3; cases is_stitching reg1 n <;> simp
            simp [stitch_videos_async, h0f, h1, h2, register_stitch,
              is_stitching_eq_false reg1 n h3f] at hret
      · have h1f : (env.folder_exists && env.folder_is_dir) = false := by
          revert h1; cases (env.folder_exists && env.folder_is_dir) <;> simp
        simp [stitch_videos_async, h0f, h1f]

/-- Witness for C7: a duplicate-in-flight submission is rejected without
registry mutation. -/
theorem submission_validation_order_witness :
    stitch_videos_async "demo" "/v" "/out.mp4" none true false submitEnvDemo
        (register_stitch emptyRegistry "demo" "/v" "/out.mp4" 0).2
        (register_stitch emptyRegistry "demo" "/v" "/out.mp4" 0).2
      = { ret := none,
          registry := (register_stitch emptyRegistry "demo" "/v" "/out.mp4" 0).2,
          reject := some Reject.duplicate, spawned := none } :=
  (submission_validation_order "demo" "/v" "/out.mp4" none true false submitEnvDemo
      (register_stitch emptyRegistry "demo" "/v" "/out.mp4" 0).2
      (register_stitch emptyRegistry "demo" "/v" "/out.mp4" 0).2).1 rfl

/-- C9: whatever comparator the caller supplies, the ordered sequence handed
to the worker is a permutation of the captured snapshot (the `.mp4` filter of
the directory listing): ordering never changes membership. -/
theorem comparator_preserves_membership (n fp op : String) (key : String → Int)
    (cs hc : Bool) (env : SubmitEnv) (reg0 reg1 : Registry) (sp : Spawn)
    (h : (stitch_videos_async n fp op (some key) cs hc env reg0 reg1).spawned
      = some sp) :
    sp.video_files.Perm (env.listdir.filter (fun f => pyEndsWith f ".mp4")) := by
  by_cases h0 : is_stitching reg0 n = true
  · simp [stitch_videos_async, h0] at h
  · have h0f : is_stitching reg0 n = false := by
      revert h0; cases is_stitching reg0 n <;> simp
    by_cases h1 : (env.folder_exists && env.folder_is_dir) = true
    · by_cases h2 : env.listdir.filter (fun f => pyEndsWith f ".mp4") = []
      · simp [stitch_videos_async, h0f, h1, h2] at h
      · by_cases h3 : is_stitching reg1 n = true
        · have h3s : (reg1 n).isSome = true := h3
          simp [stitch_videos_async, h0f, h1, h2, register_stitch, h3s] at h
        · have h3f : is_stitching reg1 n = false := by
            revert h3; cases is_stitching reg1 n <;> simp
          simp [stitch_videos_async, h0f, h1, h2, register_stitch,
            is_stitching_eq_false reg1 n h3f] at h
          rw [← h]
          exact sortKeyed_perm key _
    · have h1f : (env.folder_exists && env.folder_is_dir) = false := by
        revert h1; cases (env.folder_exists && env.folder_is_dir) <;> simp
      simp [stitch_videos_async, h0f, h1f] at h

/-- Witness for C9 with a constant comparator over a concrete listing. -/
theorem comparator_preserves_membership_witness :
    (Spawn.mk "demo" "/v" "/out.mp4" ["b.mp4", "c.mp4", "a.mp4"] true false).video_files.Perm
      (submitEnvDemo.listdir.filter (fun f => pyEndsWith f ".mp4")) :=
  comparator_preserves_membership "demo" "/v" "/out.mp4" (fun _ => 0) true false
    submitEnvDemo emptyRegistry emptyRegistry
    (Spawn.mk "demo" "/v" "/out.mp4" ["b.mp4", "c.mp4", "a.mp4"] true false) (by decide)

end StitchVideos
